import Mathlib

/-!
Verification development for the document-extraction pipeline
(`backend/main.py`, `backend/helpers/openai_mapper.py`).

The Python code is shallowly embedded: JSON values become an inductive
`Json` type (Python `dict`s become insertion-ordered association lists,
floats are modelled by their decimal literals), Python functions become
total Lean functions, code that can raise an exception returns
`Except String _`, and the two external collaborators (the OCR engine and
the generative model) are passed in as explicit arguments
(`Except String String` for a model call that either returns response text
or raises).

String scanning helpers mirror the exact Python `str` / `re` operations
used by the source; they are written over `List Char` with an explicit
fuel argument (always instantiated with a sufficient bound derived from
the input length) so that everything reduces inside the kernel.
-/

/-! ### Python string primitives -/

/-- Characters treated as whitespace by Python `str.strip()` / `str.isspace()`
(ASCII range, which is all the pipeline ever sees). -/
def pyIsSpace (c : Char) : Bool :=
  c = ' ' || c = '\t' || c = '\n' || c = '\x0d' || c = '\x0b' || c = '\x0c'

/-- Characters matched by `\s` in Python `re` (ASCII range): same set. -/
def reIsSpace (c : Char) : Bool := pyIsSpace c

/-- Characters matched by `\w` in Python `re` (ASCII range): `[a-zA-Z0-9_]`. -/
def isWordChar (c : Char) : Bool := c.isAlphanum || c = '_'

/-- Python `str.lower()` (ASCII case mapping suffices for the pipeline). -/
def pyLower (s : String) : String := ⟨s.data.map Char.toLower⟩

/-- Strip leading and trailing whitespace from a character list. -/
def stripChars (l : List Char) : List Char :=
  ((l.dropWhile pyIsSpace).reverse.dropWhile pyIsSpace).reverse

/-- Python `str.strip()`. -/
def pyStrip (s : String) : String := ⟨stripChars s.data⟩

/-- `startsWithChars pat l`: `pat` is an initial segment of `l`. -/
def startsWithChars : List Char → List Char → Bool
  | [], _ => true
  | _ :: _, [] => false
  | c :: cs, d :: ds => c = d && startsWithChars cs ds

/-- `containsChars pat l`: `pat` occurs as a contiguous run inside `l`. -/
def containsChars (pat : List Char) : List Char → Bool
  | [] => startsWithChars pat []
  | l@(_ :: tl) => startsWithChars pat l || containsChars pat tl

/-- Python substring test `sub in s`. -/
def containsSub (s sub : String) : Bool := containsChars sub.data s.data

/-- Python `s.replace(c, "")` for a single character, used to normalize
filenames (removing `_`, `-` and spaces). -/
def removeChar (s : String) (c : Char) : String := ⟨s.data.filter (fun d => d ≠ c)⟩

/-- Python `s.rstrip("0")`: remove every trailing `'0'`. -/
def rstripZeros (l : List Char) : List Char :=
  (l.reverse.dropWhile (fun c => c = '0')).reverse

/-- Python `s.rstrip(".")`: remove every trailing `'.'`. -/
def rstripDots (l : List Char) : List Char :=
  (l.reverse.dropWhile (fun c => c = '.')).reverse

/-! ### The JSON data model

`Json` mirrors the values `json.loads` can produce in the pipeline.
Python `dict`s are insertion-ordered association lists; numbers keep
their decimal literal (the pipeline never computes with them). -/

inductive Json where
  | null : Json
  | bool (b : Bool) : Json
  | num (s : String) : Json
  | str (s : String) : Json
  | arr (xs : List Json) : Json
  | obj (fields : List (String × Json)) : Json

/-- The per-value filter of `_clean_empty_fields`: Python keeps a value iff
`value is not None and value != [] and value != {}`. -/
def keepB : Json → Bool
  | .null => false
  | .arr [] => false
  | .obj [] => false
  | _ => true

mutual
/-- `OpenAIMapper._clean_empty_fields`: recursively remove null values,
empty arrays and empty objects; an array whose filtered contents are
empty collapses to `None` (so its parent removes it too). -/
def clean_empty_fields : Json → Json
  | .obj fs => .obj (cleanFieldsList fs)
  | .arr xs =>
      let c := cleanItems xs
      if c.isEmpty then .null else .arr c
  | j => j

/-- The `dict` branch of `_clean_empty_fields`: clean each value, keep the
entry iff the cleaned value survives the emptiness filter. -/
def cleanFieldsList : List (String × Json) → List (String × Json)
  | [] => []
  | (k, v) :: rest =>
      let cv := clean_empty_fields v
      if keepB cv then (k, cv) :: cleanFieldsList rest else cleanFieldsList rest

/-- The `list` branch of `_clean_empty_fields`: clean each item, drop items
that are `None`, `{}` or `[]`. -/
def cleanItems : List Json → List Json
  | [] => []
  | x :: rest =>
      let cx := clean_empty_fields x
      if keepB cx then cx :: cleanItems rest else cleanItems rest
end

/-! ### Python dict operations (insertion-ordered association lists) -/

/-- Python `key in d`. -/
def containsKey {α : Type} (fs : List (String × α)) (k : String) : Bool :=
  fs.any (fun kv => kv.1 == k)

/-- Python `d.get(key)` (first matching entry). -/
def dictGet {α : Type} : List (String × α) → String → Option α
  | [], _ => none
  | (k, v) :: rest, key => if k = key then some v else dictGet rest key

/-- Python `d[key] = v`: overwrite in place if the key exists, else append. -/
def dictInsert {α : Type} (fs : List (String × α)) (k : String) (v : α) :
    List (String × α) :=
  if containsKey fs k then
    fs.map (fun kv => if kv.1 = k then (k, v) else kv)
  else fs ++ [(k, v)]

/-! ### The empty-field invariant -/

mutual
/-- Every key in the tree (at any depth) maps to a non-null, non-empty
value, and every array element is non-null and non-empty: the invariant
`_clean_empty_fields` is supposed to establish. -/
def strippedJson : Json → Bool
  | .obj fs => strippedF fs
  | .arr xs => strippedL xs
  | _ => true

/-- `strippedJson` on the entries of an object. -/
def strippedF : List (String × Json) → Bool
  | [] => true
  | (_, v) :: rest => keepB v && strippedJson v && strippedF rest

/-- `strippedJson` on the items of an array. -/
def strippedL : List Json → Bool
  | [] => true
  | x :: rest => keepB x && strippedJson x && strippedL rest
end

mutual
theorem clean_stripped : ∀ j, strippedJson (clean_empty_fields j) = true
  | .null => rfl
  | .bool _ => rfl
  | .num _ => rfl
  | .str _ => rfl
  | .arr xs => by
      simp only [clean_empty_fields]
      by_cases h : (cleanItems xs).isEmpty
      · simp [h, strippedJson]
      · simp only [h, if_false]
        exact cleanItems_stripped xs
  | .obj fs => by
      simp only [clean_empty_fields, strippedJson]
      exact cleanFieldsList_stripped fs

theorem cleanFieldsList_stripped : ∀ fs, strippedF (cleanFieldsList fs) = true
  | [] => rfl
  | (k, v) :: rest => by
      simp only [cleanFieldsList]
      by_cases h : keepB (clean_empty_fields v)
      · simp only [h, if_true, strippedF, Bool.and_eq_true]
        exact ⟨⟨trivial, clean_stripped v⟩, cleanFieldsList_stripped rest⟩
      · simp only [h, if_false]
        exact cleanFieldsList_stripped rest

theorem cleanItems_stripped : ∀ xs, strippedL (cleanItems xs) = true
  | [] => rfl
  | x :: rest => by
      simp only [cleanItems]
      by_cases h : keepB (clean_empty_fields x)
      · simp only [h, if_true, strippedL, Bool.and_eq_true]
        exact ⟨⟨trivial, clean_stripped x⟩, cleanItems_stripped rest⟩
      · simp only [h, if_false]
        exact cleanItems_stripped rest
end

theorem keepB_true_ne_arrnil {j : Json} (h : keepB j = true) : j ≠ Json.arr [] := by
  intro he; subst he; exact Bool.noConfusion h

mutual
theorem clean_fixed : ∀ j, strippedJson j = true → j ≠ Json.arr [] →
    clean_empty_fields j = j
  | .null, _, _ => rfl
  | .bool _, _, _ => rfl
  | .num _, _, _ => rfl
  | .str _, _, _ => rfl
  | .arr xs, h, hne => by
      have hxs : xs ≠ [] := by intro he; subst he; exact hne rfl
      simp only [clean_empty_fields]
      rw [cleanItems_fixed xs h]
      simp [List.isEmpty_iff, hxs]
  | .obj fs, h, _ => by
      simp only [clean_empty_fields]
      rw [cleanFieldsList_fixed fs h]

theorem cleanFieldsList_fixed : ∀ fs, strippedF fs = true → cleanFieldsList fs = fs
  | [], _ => rfl
  | (k, v) :: rest, h => by
      simp only [strippedF, Bool.and_eq_true] at h
      obtain ⟨⟨hk, hs⟩, hr⟩ := h
      simp only [cleanFieldsList]
      rw [clean_fixed v hs (keepB_true_ne_arrnil hk), hk]
      simp only [if_true]
      rw [cleanFieldsList_fixed rest hr]

theorem cleanItems_fixed : ∀ xs, strippedL xs = true → cleanItems xs = xs
  | [], _ => rfl
  | x :: rest, h => by
      simp only [strippedL, Bool.and_eq_true] at h
      obtain ⟨⟨hk, hs⟩, hr⟩ := h
      simp only [cleanItems]
      rw [clean_fixed x hs (keepB_true_ne_arrnil hk), hk]
      simp only [if_true]
      rw [cleanItems_fixed rest hr]
end

theorem clean_ne_arrnil : ∀ j, clean_empty_fields j ≠ Json.arr []
  | .null => fun h => Json.noConfusion h
  | .bool _ => fun h => Json.noConfusion h
  | .num _ => fun h => Json.noConfusion h
  | .str _ => fun h => Json.noConfusion h
  | .obj _ => fun h => Json.noConfusion h
  | .arr xs => by
      simp only [clean_empty_fields]
      by_cases h : (cleanItems xs).isEmpty
      · simp only [h, if_true]
        exact fun he => Json.noConfusion he
      · simp only [h, if_false]
        intro he
        injection he with he2
        rw [he2] at h
        exact h rfl

/-! ### `json.loads` (Python's standard JSON parser)

Models Python's `json.loads` on `str` input: standard JSON values plus the
Python extensions `NaN` / `Infinity` / `-Infinity`; `none` models a raised
`json.JSONDecodeError`.  Parsing is recursive descent with an explicit
fuel bound (every recursive call follows the consumption of at least one
character, so `2 * length + 8` fuel is always sufficient). -/

/-- JSON whitespace skipped by the Python decoder: space, tab, LF, CR. -/
def jsonSkipWs (l : List Char) : List Char :=
  l.dropWhile (fun c => c = ' ' || c = '\t' || c = '\n' || c = '\x0d')

def hexDigitVal (c : Char) : Option Nat :=
  if c.isDigit then some (c.toNat - 48)
  else if 'a' ≤ c ∧ c ≤ 'f' then some (c.toNat - 87)
  else if 'A' ≤ c ∧ c ≤ 'F' then some (c.toNat - 55)
  else none

def hex4 : List Char → Option (Nat × List Char)
  | a :: b :: c :: d :: rest =>
    match hexDigitVal a, hexDigitVal b, hexDigitVal c, hexDigitVal d with
    | some x, some y, some z, some w => some (((x * 16 + y) * 16 + z) * 16 + w, rest)
    | _, _, _, _ => none
  | _ => none

/-- Single-character string escapes accepted by the JSON decoder. -/
def escChar (c : Char) : Option Char :=
  if c = '"' then some '"'
  else if c = '\\' then some '\\'
  else if c = '/' then some '/'
  else if c = 'b' then some '\x08'
  else if c = 'f' then some '\x0c'
  else if c = 'n' then some '\n'
  else if c = 'r' then some '\x0d'
  else if c = 't' then some '\t'
  else none

/-- Parse a JSON string body (after the opening quote) up to and including
the closing quote; returns the decoded characters and the remaining input.
Unescaped control characters are rejected (`strict=True`, the default). -/
def parseStringBody : Nat → List Char → Option (List Char × List Char)
  | 0, _ => none
  | _, [] => none
  | fuel+1, c :: rest =>
    if c = '"' then some ([], rest)
    else if c = '\\' then
      match rest with
      | [] => none
      | 'u' :: rest2 =>
        match hex4 rest2 with
        | none => none
        | some (n, r3) =>
          let withChar := fun (ch : Char) (r : List Char) =>
            match parseStringBody fuel r with
            | some (s, rr) => some (ch :: s, rr)
            | none => none
          if 0xD800 ≤ n ∧ n ≤ 0xDBFF then
            match r3 with
            | '\\' :: 'u' :: r4 =>
              match hex4 r4 with
              | some (m, r5) =>
                if 0xDC00 ≤ m ∧ m ≤ 0xDFFF then
                  withChar (Char.ofNat (0x10000 + (n - 0xD800) * 0x400 + (m - 0xDC00))) r5
                else withChar (Char.ofNat n) r3
              | none => withChar (Char.ofNat n) r3
            | _ => withChar (Char.ofNat n) r3
          else withChar (Char.ofNat n) r3
      | e :: rest2 =>
        match escChar e with
        | none => none
        | some ch =>
          match parseStringBody fuel rest2 with
          | some (s, rr) => some (ch :: s, rr)
          | none => none
    else if c.toNat < 32 then none
    else
      match parseStringBody fuel rest with
      | some (s, rr) => some (c :: s, rr)
      | none => none

/-- Maximal match of the decoder's number regular expression
`(-?(0|[1-9][0-9]*))(\.[0-9]+)?([eE][-+]?[0-9]+)?` at the head of the
input; returns the matched literal and the rest. -/
def parseNumberToken (l : List Char) : Option (List Char × List Char) :=
  let sgn : List Char × List Char :=
    match l with
    | '-' :: r => (['-'], r)
    | _ => ([], l)
  match sgn.2 with
  | [] => none
  | c :: _ =>
    if !c.isDigit then none
    else
      let ipr : List Char × List Char :=
        if c = '0' then (['0'], sgn.2.drop 1)
        else (sgn.2.takeWhile Char.isDigit, sgn.2.dropWhile Char.isDigit)
      let fpr : List Char × List Char :=
        match ipr.2 with
        | '.' :: r =>
          let ds := r.takeWhile Char.isDigit
          if ds.isEmpty then ([], ipr.2) else ('.' :: ds, r.drop ds.length)
        | _ => ([], ipr.2)
      let epr : List Char × List Char :=
        match fpr.2 with
        | e :: r =>
          if e = 'e' ∨ e = 'E' then
            let esr : List Char × List Char :=
              match r with
              | s2 :: rr => if s2 = '+' ∨ s2 = '-' then ([s2], rr) else ([], r)
              | [] => ([], r)
            let ds := esr.2.takeWhile Char.isDigit
            if ds.isEmpty then ([], fpr.2)
            else (e :: (esr.1 ++ ds), esr.2.drop ds.length)
          else ([], fpr.2)
        | [] => ([], fpr.2)
      some (sgn.1 ++ ipr.1 ++ fpr.1 ++ epr.1, epr.2)

mutual
/-- `scan_once`: parse one JSON value at the head of the input. -/
def parseValue : Nat → List Char → Option (Json × List Char)
  | 0, _ => none
  | fuel+1, l =>
    match l with
    | [] => none
    | '"' :: rest =>
      match parseStringBody fuel rest with
      | some (s, r) => some (.str ⟨s⟩, r)
      | none => none
    | '{' :: rest =>
      match jsonSkipWs rest with
      | '}' :: r2 => some (.obj [], r2)
      | r => parseObjItems fuel r []
    | '[' :: rest =>
      match jsonSkipWs rest with
      | ']' :: r2 => some (.arr [], r2)
      | r => parseArrItems fuel r []
    | 't' :: rest =>
      if startsWithChars "rue".data rest then some (.bool true, rest.drop 3) else none
    | 'f' :: rest =>
      if startsWithChars "alse".data rest then some (.bool false, rest.drop 4) else none
    | 'n' :: rest =>
      if startsWithChars "ull".data rest then some (.null, rest.drop 3) else none
    | 'N' :: rest =>
      if startsWithChars "aN".data rest then some (.num "NaN", rest.drop 2) else none
    | 'I' :: rest =>
      if startsWithChars "nfinity".data rest then some (.num "Infinity", rest.drop 7)
      else none
    | c :: rest =>
      if c = '-' && startsWithChars "Infinity".data rest then
        some (.num "-Infinity", rest.drop 8)
      else
        match parseNumberToken l with
        | some (tok, r) => some (.num ⟨tok⟩, r)
        | none => none

/-- Object members after `{` (first member onward); duplicate keys follow
Python `dict` semantics: first position, last value. -/
def parseObjItems : Nat → List Char → List (String × Json) →
    Option (Json × List Char)
  | 0, _, _ => none
  | fuel+1, l, acc =>
    match l with
    | '"' :: rest =>
      match parseStringBody fuel rest with
      | none => none
      | some (key, r1) =>
        match jsonSkipWs r1 with
        | ':' :: r3 =>
          match parseValue fuel (jsonSkipWs r3) with
          | none => none
          | some (v, r5) =>
            let acc2 := dictInsert acc ⟨key⟩ v
            match jsonSkipWs r5 with
            | ',' :: r7 => parseObjItems fuel (jsonSkipWs r7) acc2
            | '}' :: r7 => some (.obj acc2, r7)
            | _ => none
        | _ => none
    | _ => none

/-- Array items after `[` (first item onward). -/
def parseArrItems : Nat → List Char → List Json → Option (Json × List Char)
  | 0, _, _ => none
  | fuel+1, l, acc =>
    match parseValue fuel l with
    | none => none
    | some (v, r1) =>
      match jsonSkipWs r1 with
      | ',' :: r2 => parseArrItems fuel (jsonSkipWs r2) (acc ++ [v])
      | ']' :: r2 => some (.arr (acc ++ [v]), r2)
      | _ => none
end

/-- Python `json.loads`: parse a complete JSON document; trailing
non-whitespace raises (`Extra data`), modelled as `none`. -/
def jsonLoads (s : String) : Option Json :=
  match parseValue (2 * s.data.length + 8) (jsonSkipWs s.data) with
  | some (j, rest) => if (jsonSkipWs rest).isEmpty then some j else none
  | none => none

/-! ### Triple-backtick fence splitting -/

/-- The separator used by `text.split` in `_safe_parse_json`. -/
def fenceChars : List Char := "```".data

def splitFenceAux : Nat → List Char → List Char → List (List Char)
  | 0, acc, rest => [acc.reverse ++ rest]
  | fuel+1, acc, l =>
    match l with
    | [] => [acc.reverse]
    | c :: tl =>
      if startsWithChars fenceChars l then
        acc.reverse :: splitFenceAux fuel [] (l.drop 3)
      else splitFenceAux fuel (c :: acc) tl

/-- Python `text.split` on a triple-backtick separator (non-overlapping,
left to right; always returns at least one piece). -/
def splitFence (s : String) : List String :=
  (splitFenceAux (s.data.length + 1) [] s.data).map (fun l => ⟨l⟩)

/-- `text.split(...)[-1]`: the piece after the last fence (the whole text
when no fence occurs). -/
def lastSegment (s : String) : String := (splitFence s).getLastD s

/-- `OpenAIMapper._safe_parse_json`: strict parse, then a salvage parse on
the stripped text after the last fence, then the error object. -/
def safe_parse_json (text : String) : Json :=
  match jsonLoads text with
  | some j => j
  | none =>
    match jsonLoads (pyStrip (lastSegment text)) with
    | some j => j
    | none => .obj [("error", .str "Invalid JSON returned from model.")]

example : jsonLoads "\x7b\"a\": 1, \"b\": [true, null, \"x\\n\"]\x7d" =
    some (.obj [("a", .num "1"),
                ("b", .arr [.bool true, .null, .str "x\n"])]) := rfl

example : jsonLoads "01" = none := rfl

example : jsonLoads "" = none := rfl

example : splitFence "```json\nhi\n```" = ["", "json\nhi\n", ""] := rfl

example : safe_parse_json "```\n\x7b\"a\": 1\x7d\n```" =
    .obj [("error", .str "Invalid JSON returned from model.")] := rfl

example : safe_parse_json "noise ```\x7b\"a\": 2\x7d" = .obj [("a", .num "2")] := rfl

/-! ### `_extract_odometer_and_trip_values`

Each Python regular expression is compiled by hand into a deterministic
scanner with the same match semantics (leftmost match, ordered
alternation, greedy repetition with the only backtracking these patterns
can exercise: dropping an optional fractional part when a following
word-boundary or unit/keyword fails). -/

def isCommaTab (c : Char) : Bool := c = ',' || c = '\t'

/-- `re.sub(r"[,\t]+", " ", ·)`: each maximal run of commas/tabs becomes
one space. -/
def subCommaTab : Nat → List Char → List Char
  | 0, _ => []
  | _, [] => []
  | fuel+1, c :: rest =>
    if isCommaTab c then ' ' :: subCommaTab fuel (rest.dropWhile isCommaTab)
    else c :: subCommaTab fuel rest

/-- `re.sub(r"\s{2,}", " ", ·)`: each maximal run of two or more
whitespace characters becomes one space (a lone whitespace char stays). -/
def collapseWs : Nat → List Char → List Char
  | 0, _ => []
  | _, [] => []
  | fuel+1, c :: rest =>
    if reIsSpace c then
      match rest with
      | d :: _ =>
        if reIsSpace d then ' ' :: collapseWs fuel (rest.dropWhile reIsSpace)
        else c :: collapseWs fuel rest
      | [] => [c]
    else c :: collapseWs fuel rest

/-- `clean` as built by the extractor: lower-case, squash comma/tab runs,
squash whitespace runs, strip. -/
def cleanedText (text : String) : List Char :=
  let l1 := (pyLower text).data
  let l2 := subCommaTab l1.length l1
  stripChars (collapseWs l2.length l2)

/-- `\b` after a word character: the next character (if any) is non-word. -/
def boundaryOk : List Char → Bool
  | [] => true
  | c :: _ => !(isWordChar c)

/-- `(\d+(?:\.\d+)?)\b` at the head of the input: greedy digits, greedy
optional fraction, word boundary (falling back to the integer part when
the boundary after the fraction fails, as the regex engine would). -/
def numWithBoundary (l : List Char) : Option (List Char × List Char) :=
  let ds := l.takeWhile Char.isDigit
  if ds.isEmpty then none
  else
    let r := l.drop ds.length
    match r with
    | '.' :: r2 =>
      let fs := r2.takeWhile Char.isDigit
      if fs.isEmpty then some (ds, r)
      else
        let r3 := r2.drop fs.length
        if boundaryOk r3 then some (ds ++ '.' :: fs, r3)
        else some (ds, r)
    | _ => if boundaryOk r then some (ds, r) else none

/-- `(?:trip|tm)` at the head of the input. -/
def matchTripKeyAt (l : List Char) : Option (List Char) :=
  if startsWithChars "trip".data l then some (l.drop 4)
  else if startsWithChars "tm".data l then some (l.drop 2)
  else none

/-- `(?:trip|tm)\s*[:\-]?\s*(\d+(?:\.\d+)?)\b` at the head of the input:
returns (captured number, rest after the whole match). -/
def matchTripAAt (l : List Char) : Option (List Char × List Char) :=
  match matchTripKeyAt l with
  | none => none
  | some r1 =>
    let r2 := r1.dropWhile reIsSpace
    let r3 :=
      match r2 with
      | c :: rest => if c = ':' || c = '-' then rest else r2
      | [] => ([] : List Char)
    numWithBoundary (r3.dropWhile reIsSpace)

/-- `re.search` for the first trip pattern: leftmost match, reported as
(start, end, captured number). -/
def findTripA : Nat → Nat → List Char → Option (Nat × Nat × List Char)
  | 0, _, _ => none
  | fuel+1, i, l =>
    match matchTripAAt l with
    | some (g, rest) => some (i, i + (l.length - rest.length), g)
    | none =>
      match l with
      | [] => none
      | _ :: tl => findTripA fuel (i + 1) tl

/-- `\s*(?:tm|trip)\b` (tail of the fallback trip pattern). -/
def tripTailKw (r : List Char) : Option (List Char) :=
  let r2 := r.dropWhile reIsSpace
  if startsWithChars "tm".data r2 && boundaryOk (r2.drop 2) then some (r2.drop 2)
  else if startsWithChars "trip".data r2 && boundaryOk (r2.drop 4) then
    some (r2.drop 4)
  else none

/-- `(\d+(?:\.\d+)?)\s*(?:tm|trip)\b` at the head of the input (the `\b`
before the digits is checked by the caller). -/
def matchTripBAt (l : List Char) : Option (List Char × List Char) :=
  let ds := l.takeWhile Char.isDigit
  if ds.isEmpty then none
  else
    let r := l.drop ds.length
    match r with
    | '.' :: r2 =>
      let fs := r2.takeWhile Char.isDigit
      if fs.isEmpty then
        match tripTailKw r with
        | some rest => some (ds, rest)
        | none => none
      else
        match tripTailKw (r2.drop fs.length) with
        | some rest => some (ds ++ '.' :: fs, rest)
        | none =>
          match tripTailKw r with
          | some rest => some (ds, rest)
          | none => none
    | _ =>
      match tripTailKw r with
      | some rest => some (ds, rest)
      | none => none

/-- `re.search` for `\b(\d+(?:\.\d+)?)\s*(?:tm|trip)\b`, tracking whether
the previous character is a word character (for the leading `\b`). -/
def findTripB : Nat → Nat → Bool → List Char → Option (Nat × Nat × List Char)
  | 0, _, _, _ => none
  | fuel+1, i, prevW, l =>
    match l with
    | [] => none
    | c :: tl =>
      if !prevW then
        match matchTripBAt l with
        | some (g, rest) => some (i, i + (l.length - rest.length), g)
        | none => findTripB fuel (i + 1) (isWordChar c) tl
      else findTripB fuel (i + 1) (isWordChar c) tl

/-- The ±10-character window `clean[max(0, start - 10) : end + 10]`. -/
def snippetAt (clean : List Char) (s e : Nat) : List Char :=
  let lo := s - 10
  (clean.drop lo).take (e + 10 - lo)

/-- `trip\s*[ab]\b` at the head of the input. -/
def hasTripABAt (l : List Char) : Bool :=
  if startsWithChars "trip".data l then
    match (l.drop 4).dropWhile reIsSpace with
    | c :: rest => (c = 'a' || c = 'b') && boundaryOk rest
    | [] => false
  else false

def hasTripAB : Nat → List Char → Bool
  | 0, _ => false
  | fuel+1, l =>
    match l with
    | [] => false
    | _ :: tl => hasTripABAt l || hasTripAB fuel tl

/-- `re.search(r"computer|trip\s*[ab]\b|info", snippet)`. -/
def snippetReject (sn : List Char) : Bool :=
  containsChars "computer".data sn || hasTripAB sn.length sn ||
    containsChars "info".data sn

/-- `\bkm\b|\bkilometer` at the head of the input (previous character
known non-word). -/
def kmAt (l : List Char) : Bool :=
  (startsWithChars "km".data l && boundaryOk (l.drop 2)) ||
    startsWithChars "kilometer".data l

/-- `re.search(r"\bkm\b|\bkilometer", clean)`. -/
def hasKmToken : Nat → Bool → List Char → Bool
  | 0, _, _ => false
  | fuel+1, prevW, l =>
    match l with
    | [] => false
    | c :: tl => (!prevW && kmAt l) || hasKmToken fuel (isWordChar c) tl

/-- `s?` after a unit keyword. -/
def optS : List Char → List Char
  | 's' :: r => r
  | r => r

/-- `\s*(?:mi|mile|km|kilometer)s?` (ordered alternation: `mi` shadows
`mile`, exactly as in the Python pattern). -/
def unitTail (r : List Char) : Option (List Char) :=
  let r2 := r.dropWhile reIsSpace
  if startsWithChars "mi".data r2 then some (optS (r2.drop 2))
  else if startsWithChars "km".data r2 then some (optS (r2.drop 2))
  else if startsWithChars "kilometer".data r2 then some (optS (r2.drop 9))
  else none

/-- `(\d+(?:\.\d+)?)\s*(?:mi|mile|km|kilometer)s?` at the head of the
input. -/
def matchMileageAt (l : List Char) : Option (List Char × List Char) :=
  let ds := l.takeWhile Char.isDigit
  if ds.isEmpty then none
  else
    let r := l.drop ds.length
    match r with
    | '.' :: r2 =>
      let fs := r2.takeWhile Char.isDigit
      if fs.isEmpty then
        match unitTail r with
        | some rest => some (ds, rest)
        | none => none
      else
        match unitTail (r2.drop fs.length) with
        | some rest => some (ds ++ '.' :: fs, rest)
        | none =>
          match unitTail r with
          | some rest => some (ds, rest)
          | none => none
    | _ =>
      match unitTail r with
      | some rest => some (ds, rest)
      | none => none

/-- `re.finditer` over the mileage pattern, keeping the last capture. -/
def lastMileageGroup : Nat → List Char → Option (List Char) → Option (List Char)
  | 0, _, acc => acc
  | fuel+1, l, acc =>
    match l with
    | [] => acc
    | _ :: tl =>
      match matchMileageAt l with
      | some (g, rest) => lastMileageGroup fuel rest (some g)
      | none => lastMileageGroup fuel tl acc

/-- `\d+(?:\.\d+)?` (no trailing context, pure greedy). -/
def numTokenGreedy (l : List Char) : Option (List Char × List Char) :=
  let ds := l.takeWhile Char.isDigit
  if ds.isEmpty then none
  else
    let r := l.drop ds.length
    match r with
    | '.' :: r2 =>
      let fs := r2.takeWhile Char.isDigit
      if fs.isEmpty then some (ds, r) else some (ds ++ '.' :: fs, r2.drop fs.length)
    | _ => some (ds, r)

/-- `re.findall(r"\d+(?:\.\d+)?", clean)`. -/
def findAllNums : Nat → List Char → List (List Char)
  | 0, _ => []
  | fuel+1, l =>
    match l with
    | [] => []
    | _ :: tl =>
      match numTokenGreedy l with
      | some (g, rest) => g :: findAllNums fuel rest
      | none => findAllNums fuel tl

/-! Exact comparison of decimal number tokens, modelling the
`key=lambda x: float(x)` comparison in `max` (exact rational comparison,
which agrees with the float comparison at the extractor's magnitudes). -/

def dropLeadZeros (l : List Char) : List Char := l.dropWhile (fun c => c = '0')

def digitsLtLex : List Char → List Char → Bool
  | _, [] => false
  | [], _ :: _ => false
  | a :: as2, b :: bs => if a = b then digitsLtLex as2 bs else decide (a < b)

def intDigitsLt (a b : List Char) : Bool :=
  let a2 := dropLeadZeros a
  let b2 := dropLeadZeros b
  if a2.length < b2.length then true
  else if b2.length < a2.length then false
  else digitsLtLex a2 b2

def padTo (n : Nat) (l : List Char) : List Char := l ++ List.replicate (n - l.length) '0'

/-- Integer and fractional digits of a `\d+(\.\d+)?` token. -/
def splitNumTok (l : List Char) : List Char × List Char :=
  (l.takeWhile Char.isDigit, ((l.dropWhile Char.isDigit).drop 1).takeWhile Char.isDigit)

def numValLt (a b : List Char) : Bool :=
  let ai := (splitNumTok a).1
  let af := (splitNumTok a).2
  let bi := (splitNumTok b).1
  let bf := (splitNumTok b).2
  if intDigitsLt ai bi then true
  else if intDigitsLt bi ai then false
  else
    let n := max af.length bf.length
    digitsLtLex (padTo n af) (padTo n bf)

/-- `max(nums, key=lambda x: float(x))`: first maximal element wins. -/
def maxNumTok (first : List Char) (rest : List (List Char)) : List Char :=
  rest.foldl (fun best n => if numValLt best n then n else best) first

/-- The trip value before cleaning: first trip pattern, else the fallback
pattern; a match is discarded when its ±10 window trips the menu-label
filter. `[]` plays the role of Python's `""`. -/
def tripRawVal (clean : List Char) : List Char :=
  let m :=
    match findTripA (clean.length + 1) 0 clean with
    | some r => some r
    | none => findTripB (clean.length + 1) 0 false clean
  match m with
  | some (s, e, g) => if snippetReject (snippetAt clean s e) then [] else g
  | none => []

/-- The odometer value before cleaning: last unit-tagged number, else the
numerically largest bare number. -/
def odoRawVal (clean : List Char) : List Char :=
  match lastMileageGroup (clean.length + 1) clean none with
  | some g => g
  | none =>
    match findAllNums (clean.length + 1) clean with
    | [] => []
    | n :: ns => maxNumTok n ns

/-- `·.rstrip("0").rstrip(".")`. -/
def trimVal (l : List Char) : List Char := rstripDots (rstripZeros l)

/-- `OpenAIMapper._extract_odometer_and_trip_values`. -/
def extract_odometer_and_trip_values (text : String) : List (String × String) :=
  if text = "" then []
  else
    let clean := cleanedText text
    let unit : String :=
      if hasKmToken (clean.length + 1) false clean then "km" else "miles"
    let trip0 := tripRawVal clean
    let odo0 := odoRawVal clean
    let odo_val := if odo0.isEmpty then odo0 else trimVal odo0
    let trip_val := if trip0.isEmpty then trip0 else trimVal trip0
    let result := [("OdometerReading", (⟨odo_val⟩ : String)), ("Unit", unit)]
    if trip_val.isEmpty then result
    else result ++ [("TripReading", (⟨trip_val⟩ : String))]

example : extract_odometer_and_trip_values "" = [] := rfl

example : extract_odometer_and_trip_values "Trip Computer A/B 1234.5 mi 68321 mi" =
    [("OdometerReading", "68321"), ("Unit", "miles")] := rfl

example : extract_odometer_and_trip_values "TM 2471.60 mi, 68263.0 mi" =
    [("OdometerReading", "68263"), ("Unit", "miles"), ("TripReading", "2471.6")] := rfl

example : extract_odometer_and_trip_values "hello" =
    [("OdometerReading", ""), ("Unit", "miles")] := rfl

example : extract_odometer_and_trip_values "odometer 12,345 km" =
    [("OdometerReading", "345"), ("Unit", "km")] := rfl

example : extract_odometer_and_trip_values "odometer km" =
    [("OdometerReading", ""), ("Unit", "km")] := rfl

example : extract_odometer_and_trip_values "trip 12.34abc then 99" =
    [("OdometerReading", "99"), ("Unit", "miles"), ("TripReading", "12")] := rfl

example : extract_odometer_and_trip_values "tm2471 total 555" =
    [("OdometerReading", "2471"), ("Unit", "miles"), ("TripReading", "2471")] := rfl

example : extract_odometer_and_trip_values "TRIP: 88.50 Km 300 kms" =
    [("OdometerReading", "3"), ("Unit", "km"), ("TripReading", "88.5")] := rfl

example : extract_odometer_and_trip_values "1200 mi" =
    [("OdometerReading", "12"), ("Unit", "miles")] := rfl

example : extract_odometer_and_trip_values "0.0 mi" =
    [("OdometerReading", "0"), ("Unit", "miles")] := rfl

/-! ### `normalize_text` (the structuring engine)

The external model call is passed in as `modelResponse : Except String String`
(`.ok` = the stripped-to-be response text, `.error` = the call raised). -/

/-- Python truthiness of `not text or not text.strip()`. -/
def pyBlank (text : String) : Bool := text = "" || pyStrip text = ""

/-- Lines 195-198: default `DocumentType` / `ConfidenceScore` when the
model omitted them. -/
def ensure_required_fields (fields : List (String × Json))
    (doc_type confidence : String) : List (String × Json) :=
  let f1 :=
    if containsKey fields "DocumentType" then fields
    else dictInsert fields "DocumentType" (.str doc_type)
  if containsKey f1 "ConfidenceScore" then f1
  else dictInsert f1 "ConfidenceScore" (.num confidence)

/-- Lines 200-207: remember the two required values, strip empty fields,
then write the remembered values back. -/
def clean_and_restore (fields : List (String × Json))
    (doc_type confidence : String) : List (String × Json) :=
  let doc_type_val := (dictGet fields "DocumentType").getD (.str doc_type)
  let conf_score_val := (dictGet fields "ConfidenceScore").getD (.num confidence)
  let cleaned := cleanFieldsList fields
  dictInsert (dictInsert cleaned "DocumentType" doc_type_val)
    "ConfidenceScore" conf_score_val

/-- Lines 209-216 (body of the odometer branch): merge the extractor's
readings; `OdometerReading` (and with it `Unit`) only when the extracted
odometer value is truthy, `TripReading` only when truthy. -/
def odometer_postprocess (fields : List (String × Json)) (text : String) :
    List (String × Json) :=
  let readings := extract_odometer_and_trip_values text
  let odo := (dictGet readings "OdometerReading").getD ""
  let f1 :=
    if odo ≠ "" then
      dictInsert (dictInsert fields "OdometerReading" (.str odo)) "Unit"
        (.str ((dictGet readings "Unit").getD "miles"))
    else fields
  let trip := (dictGet readings "TripReading").getD ""
  if trip ≠ "" then dictInsert f1 "TripReading" (.str trip) else f1

/-- The body of `normalize_text`'s `try:` block once the model call has
returned `content`: strip, parse defensively, ensure/clean/restore the
required fields, conditionally post-process odometer readings.  When the
parse produces a non-object, the required-field lines raise
(`TypeError`/`AttributeError`, depending on the parsed type), modelled by
`.error`. -/
def normalizeParsedStep (content text doc_type confidence : String) :
    Except String (List (String × Json)) :=
  match safe_parse_json (pyStrip content) with
  | .obj fields =>
    let f1 := ensure_required_fields fields doc_type confidence
    let f2 := clean_and_restore f1 doc_type confidence
    let f3 :=
      if containsSub (pyLower doc_type) "odometer" ||
          containsSub (pyLower text) "odometer" then
        odometer_postprocess f2 text
      else f2
    .ok f3
  | _ => .error "TypeError: parsed model output is not a JSON object"

/-- `OpenAIMapper.normalize_text`. -/
def normalize_text (modelResponse : Except String String)
    (text doc_type confidence : String) : Json :=
  if pyBlank text then .obj [("error", .str "No text provided for normalization.")]
  else
    match modelResponse with
    | .error e =>
      .obj [("error", .str "Text normalization failed"), ("message", .str e)]
    | .ok content =>
      match normalizeParsedStep content text doc_type confidence with
      | .ok fields => .obj fields
      | .error e =>
        .obj [("error", .str "Text normalization failed"), ("message", .str e)]

example :
    normalize_text (.ok "\x7b\"Name\": \"Bob\", \"Empty\": []\x7d")
      "some text" "Generic" "0.87" =
    .obj [("Name", .str "Bob"), ("DocumentType", .str "Generic"),
          ("ConfidenceScore", .num "0.87")] := rfl

example :
    normalize_text (.ok "\x7b\"a\": 1\x7d") "   " "Generic" "0.5" =
    .obj [("error", .str "No text provided for normalization.")] := rfl

example :
    normalize_text (.ok "[1, 2]") "abc" "Generic" "0.0" =
    .obj [("error", .str "Text normalization failed"),
          ("message", .str "TypeError: parsed model output is not a JSON object")] := rfl

/-! ### `refine_license_fields` (main.py lines 193-235) -/

/-- `refine_license_fields`: applies only to driver's-license records; the
model call and the response parse are wrapped in `try/except` returning
the input on failure.  The `DocumentType` lookup (line 195) happens
*outside* the `try:` block: a non-string value makes `.lower()` raise,
modelled by `.error`.  A successful parse is returned as-is (it need not
be an object). -/
def refine_license_fields (json_data : List (String × Json)) (_raw_text : String)
    (modelResponse : Except String String) : Except String Json :=
  match (dictGet json_data "DocumentType").getD (.str "") with
  | .str s =>
    let doc_type := removeChar (pyLower s) ' '
    if !containsSub doc_type "driverlicense" then .ok (.obj json_data)
    else
      match modelResponse with
      | .error _ => .ok (.obj json_data)
      | .ok content =>
        let cleaned_text := pyStrip content
        let candidate :=
          if containsSub cleaned_text "```" then pyStrip (lastSegment cleaned_text)
          else cleaned_text
        match jsonLoads candidate with
        | some refined => .ok refined
        | none => .ok (.obj json_data)
  | _ => .error "AttributeError: DocumentType value has no attribute lower"

/-! ### `detect_document_type` (main.py lines 240-320) -/

/-- Filename normalization: lower-case, then remove `_`, `-`, spaces. -/
def normName (filename : String) : String :=
  removeChar (removeChar (removeChar (pyLower filename) '_') '-') ' '

/-- `any(k in s for k in kws)`. -/
def anyKwIn (kws : List String) (s : String) : Bool :=
  kws.any (fun k => containsSub s k)

def resFilenameKws : List String :=
  ["por", "proofres", "residenceproof", "addressproof", "utilitybill", "lease",
   "proofresidence"]
def poiFilenameKws : List String :=
  ["poi", "proofincome", "incomeproof", "incomecertificate", "paystub",
   "salaryslip", "ssa", "wages", "earnings", "income"]
def titleFilenameKws : List String :=
  ["title", "certificateoftitle", "vehicletitle", "ownershiptitle"]
def insFilenameKws : List String := ["insurance", "policy", "plan", "coverage", "cobra"]
def dlFilenameKws : List String := ["dl", "driverlicense", "driver"]
def regFilenameKws : List String := ["reg", "registration"]
def odoFilenameKws : List String := ["odo", "odometer", "mileage"]
def refFilenameKws : List String :=
  ["reference", "references", "ref", "personalref", "characterref", "employerref"]
/-- The keyword list used when counting driver-license files in the batch
(note: tested against the *raw* lower-cased filenames, not the normalized
ones). -/
def dlCountKws : List String := ["driverlicense", "dl", "driver"]
def dlFrontTextKws : List String :=
  ["date of birth", "dob", "sex", "height", "weight", "eye", "class", "address",
   "expiration", "issue date"]
def dlBackTextKws : List String :=
  ["dmv", "barcode", "organ donor", "address change", "endorsement", "back",
   "restrictions"]
def titleTextKws : List String :=
  ["certificate of title", "vehicle title", "title and identification",
   "lienholder", "ownership", "odometer reading"]
def poiTextKws : List String :=
  ["pay period", "net income", "gross income", "employer", "employee", "earnings",
   "pay date", "compensation", "deductions", "social security", "ssa"]
def resOverrideTextKws : List String :=
  ["address", "lease agreement", "residence", "utility service",
   "proof of residence", "proof of address", "water bill", "gas bill"]
def resTextKws : List String :=
  ["utility", "lease", "resident", "residence", "tenant", "service address",
   "payment due", "bill to", "provider", "amount due", "proof of residence",
   "proof of address"]
def insTextKws : List String :=
  ["policy", "premium", "plan", "coverage", "expiration date", "effective date"]
def refTextKws : List String :=
  ["reference", "personal reference", "character reference", "employer reference",
   "contact person", "emergency contact", "reference name", "referee", "guarantor"]

/-- `sum(1 for f in all_files if any(k in f.lower() for k in [...]))`. -/
def dlFileCount (files : List String) : Nat :=
  files.countP (fun f => anyKwIn dlCountKws (pyLower f))

/-- `detect_document_type(filename, text, all_files)`; `all_files = none`
models Python `None` (the default). -/
def detect_document_type (filename text : String)
    (all_files : Option (List String)) : String :=
  let name := normName filename
  let text_lower := pyLower text
  if anyKwIn resFilenameKws name then "ProofOfResidence"
  else if anyKwIn poiFilenameKws name then "ProofOfIncome"
  else if anyKwIn titleFilenameKws name then "Title"
  else if anyKwIn insFilenameKws name then "Insurance"
  else if anyKwIn dlFilenameKws name then
    if containsSub name "front" then "DriverLicense - Front Side"
    else if containsSub name "back" then "DriverLicense - Back Side"
    else
      match all_files with
      | some files =>
        if files.isEmpty then "DriverLicense"
        else if dlFileCount files = 1 then
          if anyKwIn dlFrontTextKws text_lower then "DriverLicense - Front Side"
          else if anyKwIn dlBackTextKws text_lower then "DriverLicense - Back Side"
          else "DriverLicense - Front Side"
        else "DriverLicense"
      | none => "DriverLicense"
  else if anyKwIn regFilenameKws name then "Registration"
  else if anyKwIn odoFilenameKws name then "Odometer"
  else if anyKwIn refFilenameKws name then "References"
  else if containsSub text_lower "driver" && containsSub text_lower "license" then
    if containsSub text_lower "back" then "DriverLicense - Back Side"
    else if containsSub text_lower "front" then "DriverLicense - Front Side"
    else "DriverLicense"
  else if anyKwIn titleTextKws text_lower then "Title"
  else if anyKwIn poiTextKws text_lower then
    if anyKwIn resOverrideTextKws text_lower then "ProofOfResidence"
    else "ProofOfIncome"
  else if anyKwIn resTextKws text_lower then "ProofOfResidence"
  else if anyKwIn insTextKws text_lower then "Insurance"
  else if containsSub text_lower "registration" then "Registration"
  else if containsSub text_lower "odometer" || containsSub text_lower "mileage" then
    "Odometer"
  else if anyKwIn refTextKws text_lower then "References"
  else "Generic"

example : detect_document_type "Utility_Bill_March.pdf" "" none = "ProofOfResidence" := rfl
example : detect_document_type "scan01.pdf" "certificate of title" none = "Title" := rfl
example : detect_document_type "scan01.pdf" "employer lease agreement" none = "ProofOfResidence" := rfl
example : detect_document_type "scan01.pdf" "nothing here" none = "Generic" := rfl

/-! ### The batch result collection (main.py lines 439-467, success path) -/

/-- `pathlib.PurePath.name`: the part after the last slash. -/
def pathName (p : String) : String :=
  ⟨(p.data.reverse.takeWhile (fun c => c ≠ '/')).reverse⟩

/-- `pathlib.PurePath.stem`: the name minus its suffix, where the suffix
starts at the last dot provided `0 < i < len(name) - 1`. -/
def pathStem (p : String) : String :=
  let name := pathName p
  let n := name.data
  match n.reverse.findIdx? (fun c => c = '.') with
  | none => name
  | some rI =>
    let idx := n.length - 1 - rI
    if 0 < idx ∧ idx < n.length - 1 then ⟨n.take idx⟩ else name

example : pathStem "doc.pdf" = "doc" := rfl
example : pathStem "archive.tar.gz" = "archive.tar" := rfl
example : pathStem ".bashrc" = ".bashrc" := rfl
example : pathStem "noext" = "noext" := rfl

/-- What the loop stores in `generated_jsons[json_name]` (the byte fields
are I/O payloads carried along unchanged; we keep the identifying ones). -/
structure BatchEntry where
  doc_name : String
  detected_type : String
  normalized : Json

/-- One row of `results_summary` for a successfully processed document. -/
structure SummaryEntry where
  document : String
  status : String
  detected_type : String
  json_file : String

/-- One iteration of the per-document loop (success path): store the entry
in `generated_jsons` under `Path(doc_name).stem + ".json"` (a Python dict:
a repeated key overwrites in place) and append a summary row. -/
def processStep (acc : List (String × BatchEntry) × List SummaryEntry)
    (doc : String × String × Json) :
    List (String × BatchEntry) × List SummaryEntry :=
  let json_name := pathStem doc.1 ++ ".json"
  (dictInsert acc.1 json_name ⟨doc.1, doc.2.1, doc.2.2⟩,
   acc.2 ++ [⟨doc.1, "success", doc.2.1, json_name⟩])

/-- The success path of the per-document loop over a whole batch of
(filename, detected type, normalized record) triples. -/
def processBatch (docs : List (String × String × Json)) :
    List (String × BatchEntry) × List SummaryEntry :=
  docs.foldl processStep ([], [])

/-! ### Association-list lemmas -/

theorem containsKey_isSome {α : Type} (fs : List (String × α)) (k : String) :
    containsKey fs k = (dictGet fs k).isSome := by
  induction fs with
  | nil => rfl
  | cons kv rest ih =>
    obtain ⟨k1, v1⟩ := kv
    by_cases h : k1 = k
    · simp [containsKey, dictGet, h]
    · simp only [containsKey, List.any_cons] at ih ⊢
      simp [dictGet, h, ih]


theorem dictGet_mapUpd_self {α : Type} (k : String) (v : α) :
    ∀ fs : List (String × α), (dictGet fs k).isSome = true →
      dictGet (fs.map (fun kv => if kv.1 = k then (k, v) else kv)) k = some v
  | [], h => by simp [dictGet] at h
  | (k1, v1) :: rest, h => by
    by_cases h1 : k1 = k
    · simp only [List.map_cons]
      rw [show (if (k1, v1).1 = k then (k, v) else (k1, v1)) = (k, v) from if_pos h1]
      simp [dictGet]
    · simp only [List.map_cons]
      rw [show (if (k1, v1).1 = k then (k, v) else (k1, v1)) = (k1, v1) from if_neg h1]
      simp only [dictGet, if_neg h1] at h ⊢
      exact dictGet_mapUpd_self k v rest h

theorem dictGet_append_nomem_self {α : Type} (k : String) (v : α) :
    ∀ fs : List (String × α), dictGet fs k = none →
      dictGet (fs ++ [(k, v)]) k = some v
  | [], _ => by simp [dictGet]
  | (k1, v1) :: rest, h => by
    simp only [dictGet] at h
    by_cases h1 : k1 = k
    · rw [if_pos h1] at h
      exact Option.noConfusion h
    · rw [if_neg h1] at h
      simp only [List.cons_append, dictGet, if_neg h1]
      exact dictGet_append_nomem_self k v rest h

theorem dictGet_dictInsert_self {α : Type} (fs : List (String × α)) (k : String)
    (v : α) : dictGet (dictInsert fs k v) k = some v := by
  unfold dictInsert
  by_cases h : containsKey fs k = true
  · rw [if_pos h]
    rw [containsKey_isSome] at h
    exact dictGet_mapUpd_self k v fs h
  · rw [if_neg h]
    rw [containsKey_isSome] at h
    exact dictGet_append_nomem_self k v fs (Option.not_isSome_iff_eq_none.mp h)

theorem dictGet_mapUpd_ne {α : Type} (k : String) (v : α) (key : String)
    (hne : key ≠ k) :
    ∀ fs : List (String × α),
      dictGet (fs.map (fun kv => if kv.1 = k then (k, v) else kv)) key =
        dictGet fs key
  | [] => rfl
  | (k1, v1) :: rest => by
    by_cases h1 : k1 = k
    · simp only [List.map_cons]
      rw [show (if (k1, v1).1 = k then (k, v) else (k1, v1)) = (k, v) from if_pos h1]
      have hk : k ≠ key := Ne.symm hne
      have hk1 : k1 ≠ key := by rw [h1]; exact hk
      simp only [dictGet, if_neg hk, if_neg hk1]
      exact dictGet_mapUpd_ne k v key hne rest
    · simp only [List.map_cons]
      rw [show (if (k1, v1).1 = k then (k, v) else (k1, v1)) = (k1, v1) from if_neg h1]
      by_cases h2 : k1 = key
      · simp only [dictGet, if_pos h2]
      · simp only [dictGet, if_neg h2]
        exact dictGet_mapUpd_ne k v key hne rest

theorem dictGet_append_single_ne {α : Type} (k : String) (v : α) (key : String)
    (hne : key ≠ k) :
    ∀ fs : List (String × α), dictGet (fs ++ [(k, v)]) key = dictGet fs key
  | [] => by simp [dictGet, if_neg (Ne.symm hne)]
  | (k1, v1) :: rest => by
    simp only [List.cons_append, dictGet]
    by_cases h1 : k1 = key
    · rw [if_pos h1, if_pos h1]
    · rw [if_neg h1, if_neg h1]
      exact dictGet_append_single_ne k v key hne rest

theorem dictGet_dictInsert_ne {α : Type} (fs : List (String × α)) (k : String)
    (v : α) (key : String) (hne : key ≠ k) :
    dictGet (dictInsert fs k v) key = dictGet fs key := by
  unfold dictInsert
  by_cases h : containsKey fs k = true
  · rw [if_pos h]
    exact dictGet_mapUpd_ne k v key hne fs
  · rw [if_neg h]
    exact dictGet_append_single_ne k v key hne fs

theorem ensure_frame (fs : List (String × Json)) (d c key : String)
    (h1 : key ≠ "DocumentType") (h2 : key ≠ "ConfidenceScore") :
    dictGet (ensure_required_fields fs d c) key = dictGet fs key := by
  unfold ensure_required_fields
  by_cases hd : containsKey fs "DocumentType" = true
  · rw [if_pos hd]
    by_cases hc : containsKey fs "ConfidenceScore" = true
    · rw [if_pos hc]
    · rw [if_neg hc]
      exact dictGet_dictInsert_ne _ _ _ _ h2
  · rw [if_neg hd]
    by_cases hc :
        containsKey (dictInsert fs "DocumentType" (Json.str d)) "ConfidenceScore" = true
    · rw [if_pos hc]
      exact dictGet_dictInsert_ne _ _ _ _ h1
    · rw [if_neg hc]
      rw [dictGet_dictInsert_ne _ _ _ _ h2]
      exact dictGet_dictInsert_ne _ _ _ _ h1

theorem ensure_get_doc (fs : List (String × Json)) (d c : String) :
    dictGet (ensure_required_fields fs d c) "DocumentType" =
      some ((dictGet fs "DocumentType").getD (.str d)) := by
  unfold ensure_required_fields
  have hne : ("DocumentType" : String) ≠ "ConfidenceScore" := by decide
  by_cases hd : containsKey fs "DocumentType" = true
  · rw [if_pos hd]
    rw [containsKey_isSome] at hd
    obtain ⟨v, hv⟩ := Option.isSome_iff_exists.mp hd
    by_cases hc : containsKey fs "ConfidenceScore" = true
    · rw [if_pos hc, hv, Option.getD_some]
    · rw [if_neg hc, dictGet_dictInsert_ne _ _ _ _ hne, hv, Option.getD_some]
  · rw [if_neg hd]
    rw [containsKey_isSome] at hd
    have hnone : dictGet fs "DocumentType" = none :=
      Option.not_isSome_iff_eq_none.mp hd
    by_cases hc :
        containsKey (dictInsert fs "DocumentType" (Json.str d)) "ConfidenceScore" = true
    · rw [if_pos hc, dictGet_dictInsert_self, hnone, Option.getD_none]
    · rw [if_neg hc, dictGet_dictInsert_ne _ _ _ _ hne, dictGet_dictInsert_self,
        hnone, Option.getD_none]

theorem ensure_get_conf (fs : List (String × Json)) (d c : String) :
    dictGet (ensure_required_fields fs d c) "ConfidenceScore" =
      some ((dictGet fs "ConfidenceScore").getD (.num c)) := by
  unfold ensure_required_fields
  have hne : ("ConfidenceScore" : String) ≠ "DocumentType" := by decide
  by_cases hd : containsKey fs "DocumentType" = true
  · rw [if_pos hd]
    by_cases hc : containsKey fs "ConfidenceScore" = true
    · rw [if_pos hc]
      rw [containsKey_isSome] at hc
      obtain ⟨v, hv⟩ := Option.isSome_iff_exists.mp hc
      rw [hv, Option.getD_some]
    · rw [if_neg hc, dictGet_dictInsert_self]
      rw [containsKey_isSome] at hc
      rw [Option.not_isSome_iff_eq_none.mp hc, Option.getD_none]
  · rw [if_neg hd]
    have hcs : dictGet (dictInsert fs "DocumentType" (Json.str d)) "ConfidenceScore" =
        dictGet fs "ConfidenceScore" := dictGet_dictInsert_ne _ _ _ _ hne
    by_cases hc :
        containsKey (dictInsert fs "DocumentType" (Json.str d)) "ConfidenceScore" = true
    · rw [if_pos hc, hcs]
      rw [containsKey_isSome, hcs] at hc
      obtain ⟨v, hv⟩ := Option.isSome_iff_exists.mp hc
      rw [hv, Option.getD_some]
    · rw [if_neg hc, dictGet_dictInsert_self]
      rw [containsKey_isSome, hcs] at hc
      rw [Option.not_isSome_iff_eq_none.mp hc, Option.getD_none]

theorem restore_get_doc (fs : List (String × Json)) (d c : String) :
    dictGet (clean_and_restore fs d c) "DocumentType" =
      some ((dictGet fs "DocumentType").getD (.str d)) := by
  unfold clean_and_restore
  rw [dictGet_dictInsert_ne _ _ _ _ (by decide : ("DocumentType" : String) ≠ "ConfidenceScore")]
  exact dictGet_dictInsert_self _ _ _

theorem restore_get_conf (fs : List (String × Json)) (d c : String) :
    dictGet (clean_and_restore fs d c) "ConfidenceScore" =
      some ((dictGet fs "ConfidenceScore").getD (.num c)) := by
  unfold clean_and_restore
  exact dictGet_dictInsert_self _ _ _

theorem restore_frame (fs : List (String × Json)) (d c key : String)
    (h1 : key ≠ "DocumentType") (h2 : key ≠ "ConfidenceScore") :
    dictGet (clean_and_restore fs d c) key = dictGet (cleanFieldsList fs) key := by
  unfold clean_and_restore
  rw [dictGet_dictInsert_ne _ _ _ _ h2]
  exact dictGet_dictInsert_ne _ _ _ _ h1

theorem cleanFieldsList_get_str :
    ∀ (fs : List (String × Json)) (key s2 : String),
      dictGet fs key = some (Json.str s2) →
      dictGet (cleanFieldsList fs) key = some (Json.str s2)
  | [], key, s2, h => by simp [dictGet] at h
  | (k1, v1) :: rest, key, s2, h => by
    simp only [dictGet] at h
    by_cases h1 : k1 = key
    · rw [if_pos h1] at h
      injection h with hv
      subst hv
      simp only [cleanFieldsList]
      rw [show clean_empty_fields (Json.str s2) = Json.str s2 from rfl]
      rw [show keepB (Json.str s2) = true from rfl]
      simp only [if_true, dictGet, if_pos h1]
    · rw [if_neg h1] at h
      simp only [cleanFieldsList]
      by_cases h2 : keepB (clean_empty_fields v1) = true
      · rw [if_pos h2]
        simp only [dictGet, if_neg h1]
        exact cleanFieldsList_get_str rest key s2 h
      · rw [if_neg h2]
        exact cleanFieldsList_get_str rest key s2 h

theorem odo_frame (fs : List (String × Json)) (text : String) (key : String)
    (h1 : key ≠ "OdometerReading") (h2 : key ≠ "Unit") (h3 : key ≠ "TripReading") :
    dictGet (odometer_postprocess fs text) key = dictGet fs key := by
  simp only [odometer_postprocess]
  by_cases ht :
      (dictGet (extract_odometer_and_trip_values text) "TripReading").getD "" ≠ ""
  · rw [if_pos ht, dictGet_dictInsert_ne _ _ _ _ h3]
    by_cases ho :
        (dictGet (extract_odometer_and_trip_values text) "OdometerReading").getD "" ≠ ""
    · rw [if_pos ho, dictGet_dictInsert_ne _ _ _ _ h2]
      exact dictGet_dictInsert_ne _ _ _ _ h1
    · rw [if_neg ho]
  · rw [if_neg ht]
    by_cases ho :
        (dictGet (extract_odometer_and_trip_values text) "OdometerReading").getD "" ≠ ""
    · rw [if_pos ho, dictGet_dictInsert_ne _ _ _ _ h2]
      exact dictGet_dictInsert_ne _ _ _ _ h1
    · rw [if_neg ho]

theorem odo_merge_reading (fs : List (String × Json)) (text : String)
    (hne : (dictGet (extract_odometer_and_trip_values text) "OdometerReading").getD "" ≠ "") :
    dictGet (odometer_postprocess fs text) "OdometerReading" =
      some (.str ((dictGet (extract_odometer_and_trip_values text) "OdometerReading").getD "")) ∧
    dictGet (odometer_postprocess fs text) "Unit" =
      some (.str ((dictGet (extract_odometer_and_trip_values text) "Unit").getD "miles")) := by
  simp only [odometer_postprocess]
  by_cases ht :
      (dictGet (extract_odometer_and_trip_values text) "TripReading").getD "" ≠ ""
  · rw [if_pos ht, if_pos hne]
    constructor
    · rw [dictGet_dictInsert_ne _ _ _ _
        (by decide : ("OdometerReading" : String) ≠ "TripReading"),
        dictGet_dictInsert_ne _ _ _ _
        (by decide : ("OdometerReading" : String) ≠ "Unit")]
      exact dictGet_dictInsert_self _ _ _
    · rw [dictGet_dictInsert_ne _ _ _ _
        (by decide : ("Unit" : String) ≠ "TripReading")]
      exact dictGet_dictInsert_self _ _ _
  · rw [if_neg ht, if_pos hne]
    constructor
    · rw [dictGet_dictInsert_ne _ _ _ _
        (by decide : ("OdometerReading" : String) ≠ "Unit")]
      exact dictGet_dictInsert_self _ _ _
    · exact dictGet_dictInsert_self _ _ _

theorem odo_merge_trip (fs : List (String × Json)) (text : String)
    (hne : (dictGet (extract_odometer_and_trip_values text) "TripReading").getD "" ≠ "") :
    dictGet (odometer_postprocess fs text) "TripReading" =
      some (.str ((dictGet (extract_odometer_and_trip_values text) "TripReading").getD "")) := by
  simp only [odometer_postprocess]
  rw [if_pos hne]
  exact dictGet_dictInsert_self _ _ _

theorem odo_no_reading (fs : List (String × Json)) (text : String)
    (heq : (dictGet (extract_odometer_and_trip_values text) "OdometerReading").getD "" = "") :
    dictGet (odometer_postprocess fs text) "OdometerReading" =
      dictGet fs "OdometerReading" ∧
    dictGet (odometer_postprocess fs text) "Unit" = dictGet fs "Unit" := by
  simp only [odometer_postprocess]
  have hno : ¬ ((dictGet (extract_odometer_and_trip_values text) "OdometerReading").getD "" ≠ "") :=
    fun h => h heq
  by_cases ht :
      (dictGet (extract_odometer_and_trip_values text) "TripReading").getD "" ≠ ""
  · rw [if_pos ht, if_neg hno]
    exact ⟨dictGet_dictInsert_ne _ _ _ _
      (by decide : ("OdometerReading" : String) ≠ "TripReading"),
      dictGet_dictInsert_ne _ _ _ _ (by decide : ("Unit" : String) ≠ "TripReading")⟩
  · rw [if_neg ht, if_neg hno]
    exact ⟨rfl, rfl⟩

theorem odo_no_trip (fs : List (String × Json)) (text : String)
    (heq : (dictGet (extract_odometer_and_trip_values text) "TripReading").getD "" = "") :
    dictGet (odometer_postprocess fs text) "TripReading" =
      dictGet fs "TripReading" := by
  simp only [odometer_postprocess]
  have hnt : ¬ ((dictGet (extract_odometer_and_trip_values text) "TripReading").getD "" ≠ "") :=
    fun h => h heq
  rw [if_neg hnt]
  by_cases ho :
      (dictGet (extract_odometer_and_trip_values text) "OdometerReading").getD "" ≠ ""
  · rw [if_pos ho]
    rw [dictGet_dictInsert_ne _ _ _ _
      (by decide : ("TripReading" : String) ≠ "Unit")]
    exact dictGet_dictInsert_ne _ _ _ _
      (by decide : ("TripReading" : String) ≠ "OdometerReading")
  · rw [if_neg ho]

/-! ### Unfolding lemmas for `normalize_text` -/

theorem normalize_ok (s text d c : String) (fields0 : List (String × Json))
    (htext : pyBlank text = false)
    (hparse : safe_parse_json (pyStrip s) = .obj fields0) :
    normalize_text (.ok s) text d c = .obj (
      if containsSub (pyLower d) "odometer" || containsSub (pyLower text) "odometer" then
        odometer_postprocess
          (clean_and_restore (ensure_required_fields fields0 d c) d c) text
      else clean_and_restore (ensure_required_fields fields0 d c) d c) := by
  simp only [normalize_text, htext, Bool.false_eq_true, if_false,
    normalizeParsedStep, hparse]

theorem normalize_total (resp : Except String String) (text d c : String) :
    ∃ fs, normalize_text resp text d c = .obj fs := by
  unfold normalize_text
  by_cases hb : pyBlank text = true
  · rw [if_pos hb]
    exact ⟨_, rfl⟩
  · rw [if_neg hb]
    match resp with
    | .error e => exact ⟨_, rfl⟩
    | .ok content =>
      rcases hh : normalizeParsedStep content text d c with e | fields
      all_goals simp only [hh]
      · exact ⟨_, rfl⟩
      · exact ⟨fields, rfl⟩

/-- Modelled from the spec: "the content between the last pair of
triple-backtick fences" — defined when the text holds at least two fences
(i.e. the split has at least three pieces), as the piece before the last
one.  This is the claim's description of the salvage step, kept separate
from `safe_parse_json` (which takes the piece *after* the last fence) so
the two can be compared. -/
def betweenLastFencePair (s : String) : Option String :=
  let ps := splitFence s
  if 3 ≤ ps.length then some (ps.getD (ps.length - 2) "") else none

example : betweenLastFencePair "```json\nhi\n```" = some "json\nhi\n" := rfl

/-! ### Batch-collection lemmas -/

theorem mem_dictInsert {α : Type} (fs : List (String × α)) (k : String) (v : α)
    (kv : String × α) (hm : kv ∈ dictInsert fs k v) : kv ∈ fs ∨ kv = (k, v) := by
  unfold dictInsert at hm
  by_cases h : containsKey fs k = true
  · rw [if_pos h] at hm
    obtain ⟨kv0, hkv0, heq⟩ := List.mem_map.mp hm
    by_cases h0 : kv0.1 = k
    · right
      rw [← heq, if_pos h0]
    · left
      rw [← heq, if_neg h0]
      exact hkv0
  · rw [if_neg h] at hm
    rcases List.mem_append.mp hm with h1 | h2
    · exact Or.inl h1
    · exact Or.inr (List.mem_singleton.mp h2)

theorem processBatch_summary_len :
    ∀ (docs : List (String × String × Json))
      (acc : List (String × BatchEntry) × List SummaryEntry),
      ((docs.foldl processStep acc).2).length = acc.2.length + docs.length
  | [], acc => by simp
  | doc :: rest, acc => by
    rw [List.foldl_cons, processBatch_summary_len rest]
    simp only [processStep, List.length_append, List.length_cons, List.length_nil]
    omega

theorem processBatch_keys :
    ∀ (docs : List (String × String × Json))
      (acc : List (String × BatchEntry) × List SummaryEntry)
      (kv : String × BatchEntry), kv ∈ (docs.foldl processStep acc).1 →
      kv ∈ acc.1 ∨ ∃ d ∈ docs, kv.1 = pathStem d.1 ++ ".json"
  | [], _, _, hm => Or.inl hm
  | doc :: rest, acc, kv, hm => by
    rw [List.foldl_cons] at hm
    rcases processBatch_keys rest (processStep acc doc) kv hm with h1 | ⟨d, hd, he⟩
    · simp only [processStep] at h1
      rcases mem_dictInsert _ _ _ _ h1 with h2 | h3
      · exact Or.inl h2
      · exact Or.inr ⟨doc, List.mem_cons_self _ _, by rw [h3]⟩
    · exact Or.inr ⟨d, List.mem_cons_of_mem _ hd, he⟩

/-! ## Claim theorems -/

/-- C1: in the result of `_clean_empty_fields`, no key at any nesting depth
maps to null, an empty sequence, or an empty mapping (and no array element
is such a value); an array emptied by the filtering collapses to null and
is removed by its parent — the `strippedJson` invariant holds of every
cleaned tree. -/
theorem claim_C1_clean_invariant : ∀ j, strippedJson (clean_empty_fields j) = true :=
  clean_stripped

/-- C6: the empty-field-stripping routine is idempotent:
`strip (strip x) = strip x` for every JSON tree `x`. -/
theorem claim_C6_clean_idempotent :
    ∀ j, clean_empty_fields (clean_empty_fields j) = clean_empty_fields j :=
  fun j => clean_fixed (clean_empty_fields j) (clean_stripped j) (clean_ne_arrnil j)

/-- C10: the batch result collection is keyed by the input filename's stem
plus ".json"; every document gets a summary row, and two inputs sharing a
stem ("doc.pdf", "doc.jpg") both get summary rows but collapse to a single
JSON output holding the second document's record. -/
theorem claim_C10_batch_collection :
    (∀ docs : List (String × String × Json),
      ((processBatch docs).2).length = docs.length) ∧
    (∀ (docs : List (String × String × Json)) (kv : String × BatchEntry),
      kv ∈ (processBatch docs).1 →
      ∃ d ∈ docs, kv.1 = pathStem d.1 ++ ".json") ∧
    processBatch [("doc.pdf", "Generic", .str "r1"), ("doc.jpg", "Generic", .str "r2")] =
      ([("doc.json", ⟨"doc.jpg", "Generic", .str "r2"⟩)],
       [⟨"doc.pdf", "success", "Generic", "doc.json"⟩,
        ⟨"doc.jpg", "success", "Generic", "doc.json"⟩]) := by
  refine ⟨fun docs => ?_, fun docs kv hm => ?_, rfl⟩
  · have h := processBatch_summary_len docs ([], [])
    simpa [processBatch] using h
  · rcases processBatch_keys docs ([], []) kv hm with h | h
    · exact absurd h (List.not_mem_nil kv)
    · exact h

/-- Witness for C10 at a one-document batch. -/
theorem claim_C10_batch_collection_witness :
    ∃ d ∈ [("a.pdf", "Generic", Json.str "r")],
      ("a.json" : String) = pathStem d.1 ++ ".json" :=
  claim_C10_batch_collection.2.1 [("a.pdf", "Generic", Json.str "r")]
    ("a.json", ⟨"a.pdf", "Generic", Json.str "r"⟩) (List.mem_singleton.mpr rfl)

/-- C4 (amended): for all filenames whose normalized form contains "title"
*and matches no residence-proof or income-proof filename keyword* (those
stages run first), the classifier returns "Title" regardless of the OCR
text and the sibling set. -/
theorem claim_C4_title (filename text : String) (files : Option (List String))
    (ht : containsSub (normName filename) "title" = true)
    (hres : anyKwIn resFilenameKws (normName filename) = false)
    (hpoi : anyKwIn poiFilenameKws (normName filename) = false) :
    detect_document_type filename text files = "Title" := by
  have e1 : ¬(anyKwIn resFilenameKws (normName filename) = true) := by
    rw [hres]; exact Bool.false_ne_true
  have e2 : ¬(anyKwIn poiFilenameKws (normName filename) = true) := by
    rw [hpoi]; exact Bool.false_ne_true
  have e3 : anyKwIn titleFilenameKws (normName filename) = true := by
    simp only [anyKwIn, titleFilenameKws, List.any_cons, ht, Bool.true_or]
  simp only [detect_document_type]
  rw [if_neg e1, if_neg e2, if_pos e3]

/-- Counterexample to C4 as stated: "por_title.pdf" contains "title" but is
classified "ProofOfResidence" (the residence filename stage fires first). -/
theorem claim_C4_counterexample :
    containsSub (normName "por_title.pdf") "title" = true ∧
    detect_document_type "por_title.pdf" "" none = "ProofOfResidence" ∧
    detect_document_type "por_title.pdf" "" none ≠ "Title" :=
  ⟨rfl, rfl, by decide⟩

/-- Witness for C4 at "vehicle_title.pdf". -/
theorem claim_C4_title_witness :
    detect_document_type "vehicle_title.pdf" "any text" (some ["vehicle_title.pdf"]) =
      "Title" :=
  claim_C4_title "vehicle_title.pdf" "any text" (some ["vehicle_title.pdf"]) rfl rfl rfl

/-- C3 (amended): in the driver-license filename branch (no earlier keyword
stage fired, no "front"/"back" in the normalized name, a non-empty batch
list given), the OCR text is inspected exactly when the *whole batch*
(the file itself included, tested on raw lower-cased names) holds exactly
one driver-license-matching filename; otherwise plain "DriverLicense" is
returned.  In particular two files both matching (e.g. "dl1.pdf" and
"dl2.pdf") both classify as plain "DriverLicense". -/
theorem claim_C3_dl_disambiguation :
    (∀ (filename text : String) (files : List String),
      anyKwIn resFilenameKws (normName filename) = false →
      anyKwIn poiFilenameKws (normName filename) = false →
      anyKwIn titleFilenameKws (normName filename) = false →
      anyKwIn insFilenameKws (normName filename) = false →
      anyKwIn dlFilenameKws (normName filename) = true →
      containsSub (normName filename) "front" = false →
      containsSub (normName filename) "back" = false →
      files ≠ [] →
      (dlFileCount files = 1 →
        detect_document_type filename text (some files) =
          (if anyKwIn dlFrontTextKws (pyLower text) = true then
            "DriverLicense - Front Side"
           else if anyKwIn dlBackTextKws (pyLower text) = true then
            "DriverLicense - Back Side"
           else "DriverLicense - Front Side")) ∧
      (dlFileCount files ≠ 1 →
        detect_document_type filename text (some files) = "DriverLicense")) ∧
    (∀ text : String,
      detect_document_type "dl1.pdf" text (some ["dl1.pdf", "dl2.pdf"]) =
        "DriverLicense" ∧
      detect_document_type "dl2.pdf" text (some ["dl1.pdf", "dl2.pdf"]) =
        "DriverLicense") := by
  constructor
  · intro filename text files h1 h2 h3 h4 h5 h6 h7 hne
    have e1 : ¬(anyKwIn resFilenameKws (normName filename) = true) := by
      rw [h1]; exact Bool.false_ne_true
    have e2 : ¬(anyKwIn poiFilenameKws (normName filename) = true) := by
      rw [h2]; exact Bool.false_ne_true
    have e3 : ¬(anyKwIn titleFilenameKws (normName filename) = true) := by
      rw [h3]; exact Bool.false_ne_true
    have e4 : ¬(anyKwIn insFilenameKws (normName filename) = true) := by
      rw [h4]; exact Bool.false_ne_true
    have e6 : ¬(containsSub (normName filename) "front" = true) := by
      rw [h6]; exact Bool.false_ne_true
    have e7 : ¬(containsSub (normName filename) "back" = true) := by
      rw [h7]; exact Bool.false_ne_true
    have hie : files.isEmpty = false := by
      cases files with
      | nil => exact absurd rfl hne
      | cons a l => rfl
    have hbase : detect_document_type filename text (some files) =
        (if files.isEmpty = true then "DriverLicense"
         else if dlFileCount files = 1 then
           (if anyKwIn dlFrontTextKws (pyLower text) = true then
             "DriverLicense - Front Side"
            else if anyKwIn dlBackTextKws (pyLower text) = true then
             "DriverLicense - Back Side"
            else "DriverLicense - Front Side")
         else "DriverLicense") := by
      simp only [detect_document_type]
      rw [if_neg e1, if_neg e2, if_neg e3, if_neg e4, if_pos h5, if_neg e6, if_neg e7]
    rw [hbase, hie]
    simp only [Bool.false_eq_true, if_false]
    constructor
    · intro hc
      rw [if_pos hc]
    · intro hc
      rw [if_neg hc]
  · intro text
    exact ⟨rfl, rfl⟩

/-- Counterexample to C3's sibling reading: for "dl1.pdf" with the single
sibling "dl2.pdf", exactly one *sibling* matches a driver-license keyword
and the text holds a back-side keyword ("dmv"), so the claim as stated
predicts "DriverLicense - Back Side"; the code counts the file itself too
(two matches) and returns plain "DriverLicense". -/
theorem claim_C3_counterexample :
    dlFileCount ["dl2.pdf"] = 1 ∧
    anyKwIn dlFrontTextKws (pyLower "dmv") = false ∧
    anyKwIn dlBackTextKws (pyLower "dmv") = true ∧
    detect_document_type "dl1.pdf" "dmv" (some ["dl1.pdf", "dl2.pdf"]) =
      "DriverLicense" ∧
    detect_document_type "dl1.pdf" "dmv" (some ["dl1.pdf", "dl2.pdf"]) ≠
      "DriverLicense - Back Side" :=
  ⟨rfl, rfl, rfl, rfl, by decide⟩

/-- Witness for C3 at a single-file batch with back-side OCR text. -/
theorem claim_C3_dl_disambiguation_witness :
    detect_document_type "dl1.pdf" "dmv" (some ["dl1.pdf"]) =
      "DriverLicense - Back Side" := by
  have h := (claim_C3_dl_disambiguation.1 "dl1.pdf" "dmv" ["dl1.pdf"] rfl rfl rfl rfl
    rfl rfl rfl (List.cons_ne_nil _ _)).1 rfl
  exact h.trans rfl

/-- C5 (amended): the extractor is total; empty input yields the empty
mapping; on non-empty input `Unit` is always present, `OdometerReading`
is *always* present (the empty string when nothing was found — the
amendment), its value is the raw capture with trailing zeros and then
trailing dots stripped, and `TripReading` is present exactly when an
accepted trip capture survives the same trimming with a non-empty result;
the spec's two concrete examples evaluate as stated. -/
theorem claim_C5_extractor :
    extract_odometer_and_trip_values "" = [] ∧
    (∀ text : String, text ≠ "" →
      containsKey (extract_odometer_and_trip_values text) "Unit" = true ∧
      containsKey (extract_odometer_and_trip_values text) "OdometerReading" = true ∧
      dictGet (extract_odometer_and_trip_values text) "OdometerReading" =
        some ⟨if (odoRawVal (cleanedText text)).isEmpty then
                odoRawVal (cleanedText text)
              else trimVal (odoRawVal (cleanedText text))⟩ ∧
      (containsKey (extract_odometer_and_trip_values text) "TripReading" =
        !(if (tripRawVal (cleanedText text)).isEmpty then
            tripRawVal (cleanedText text)
          else trimVal (tripRawVal (cleanedText text))).isEmpty) ∧
      ((if (tripRawVal (cleanedText text)).isEmpty then tripRawVal (cleanedText text)
        else trimVal (tripRawVal (cleanedText text))).isEmpty = false →
        dictGet (extract_odometer_and_trip_values text) "TripReading" =
          some ⟨if (tripRawVal (cleanedText text)).isEmpty then
                  tripRawVal (cleanedText text)
                else trimVal (tripRawVal (cleanedText text))⟩)) ∧
    extract_odometer_and_trip_values "TM 2471.60 mi, 68263.0 mi" =
      [("OdometerReading", "68263"), ("Unit", "miles"), ("TripReading", "2471.6")] ∧
    extract_odometer_and_trip_values "Trip Computer A/B 1234.5 mi 68321 mi" =
      [("OdometerReading", "68321"), ("Unit", "miles")] := by
  refine ⟨rfl, ?_, rfl, rfl⟩
  intro text htext
  simp only [extract_odometer_and_trip_values, if_neg htext]
  by_cases htv : (if (tripRawVal (cleanedText text)).isEmpty then
      tripRawVal (cleanedText text)
    else trimVal (tripRawVal (cleanedText text))).isEmpty = true
  · rw [if_pos htv]
    refine ⟨rfl, rfl, rfl, by rw [htv]; rfl, ?_⟩
    intro h
    rw [h] at htv
    exact Bool.noConfusion htv
  · rw [if_neg htv]
    have htv2 : (if (tripRawVal (cleanedText text)).isEmpty then
        tripRawVal (cleanedText text)
      else trimVal (tripRawVal (cleanedText text))).isEmpty = false := by
      revert htv
      cases (if (tripRawVal (cleanedText text)).isEmpty then
          tripRawVal (cleanedText text)
        else trimVal (tripRawVal (cleanedText text))).isEmpty
      · intro _; rfl
      · intro h; exact absurd rfl h
    refine ⟨rfl, rfl, rfl, by rw [htv2]; rfl, fun _ => rfl⟩

/-- Counterexample to C5 as stated: "hello" holds no digit at all, so no
odometer reading can be found, yet the `OdometerReading` key is present
(with the empty string as value). -/
theorem claim_C5_counterexample :
    (cleanedText "hello").any Char.isDigit = false ∧
    extract_odometer_and_trip_values "hello" =
      [("OdometerReading", ""), ("Unit", "miles")] ∧
    containsKey (extract_odometer_and_trip_values "hello") "OdometerReading" = true :=
  ⟨rfl, rfl, rfl⟩

/-- Witness for C5 at the non-empty input "hello". -/
theorem claim_C5_extractor_witness :
    containsKey (extract_odometer_and_trip_values "hello") "Unit" = true ∧
    containsKey (extract_odometer_and_trip_values "hello") "OdometerReading" = true :=
  ⟨(claim_C5_extractor.2.1 "hello" (by decide)).1,
   (claim_C5_extractor.2.1 "hello" (by decide)).2.1⟩

/-- C9 (amended): for every record whose `DocumentType` value is a string
(or absent — Python's `.get` default), the refiner returns the record
unchanged when the type does not mention "driverlicense" (for any model
outcome, i.e. no call is consulted), and likewise returns the record
unchanged when the model call raises or its response fails to parse. -/
theorem claim_C9_refiner :
    (∀ (json_data : List (String × Json)) (raw : String)
        (resp : Except String String) (s2 : String),
      (dictGet json_data "DocumentType").getD (.str "") = .str s2 →
      containsSub (removeChar (pyLower s2) ' ') "driverlicense" = false →
      refine_license_fields json_data raw resp = .ok (.obj json_data)) ∧
    (∀ (json_data : List (String × Json)) (raw e s2 : String),
      (dictGet json_data "DocumentType").getD (.str "") = .str s2 →
      refine_license_fields json_data raw (.error e) = .ok (.obj json_data)) ∧
    (∀ (json_data : List (String × Json)) (raw content s2 : String),
      (dictGet json_data "DocumentType").getD (.str "") = .str s2 →
      jsonLoads (if containsSub (pyStrip content) "```" then
        pyStrip (lastSegment (pyStrip content)) else pyStrip content) = none →
      refine_license_fields json_data raw (.ok content) = .ok (.obj json_data)) := by
  refine ⟨?_, ?_, ?_⟩
  · intro json_data raw resp s2 hdoc hcond
    simp only [refine_license_fields, hdoc]
    rw [if_pos (by rw [hcond]; rfl)]
  · intro json_data raw e s2 hdoc
    simp only [refine_license_fields, hdoc]
    by_cases hdl : containsSub (removeChar (pyLower s2) ' ') "driverlicense" = true
    · rw [if_neg (by rw [hdl]; intro h; exact Bool.noConfusion h)]
    · rw [if_pos ?_]
      revert hdl
      cases containsSub (removeChar (pyLower s2) ' ') "driverlicense"
      · intro _; rfl
      · intro h; exact absurd rfl h
  · intro json_data raw content s2 hdoc hparse
    simp only [refine_license_fields, hdoc]
    by_cases hdl : containsSub (removeChar (pyLower s2) ' ') "driverlicense" = true
    · rw [if_neg (by rw [hdl]; intro h; exact Bool.noConfusion h), hparse]
    · rw [if_pos ?_]
      revert hdl
      cases containsSub (removeChar (pyLower s2) ' ') "driverlicense"
      · intro _; rfl
      · intro h; exact absurd rfl h

/-- Counterexample to C9's universal quantification over records: a record
whose `DocumentType` is null makes `.lower()` raise (outside the
`try:` block), so the refiner neither applies nor returns the record. -/
theorem claim_C9_counterexample :
    refine_license_fields [("DocumentType", Json.null)] "raw" (.ok "\x7b\x7d") =
      .error "AttributeError: DocumentType value has no attribute lower" := rfl

/-- Witness for C9 on its three branches. -/
theorem claim_C9_refiner_witness :
    refine_license_fields [("DocumentType", Json.str "Title")] "raw" (.ok "ignored") =
      .ok (.obj [("DocumentType", Json.str "Title")]) ∧
    refine_license_fields [("DocumentType", Json.str "DriverLicense - Front Side")]
      "raw" (.error "boom") =
      .ok (.obj [("DocumentType", Json.str "DriverLicense - Front Side")]) ∧
    refine_license_fields [("DocumentType", Json.str "DriverLicense")] "raw"
      (.ok "not json") =
      .ok (.obj [("DocumentType", Json.str "DriverLicense")]) :=
  ⟨claim_C9_refiner.1 _ "raw" _ "Title" rfl rfl,
   claim_C9_refiner.2.1 _ "raw" "boom" "DriverLicense - Front Side" rfl,
   claim_C9_refiner.2.2 _ "raw" "not json" "DriverLicense" rfl rfl⟩

/-- C2 (amended): `normalize_text` fails closed — blank input returns
exactly the no-text error object without consulting the model response at
all; when the model responds but both the direct parse and the salvage
parse *on the text after the last triple-backtick fence* fail, the parse
stage yields the invalid-JSON error object, whose `error` entry survives
into the returned record (alongside the restored required keys); and on
every input the function returns a mapping — it never raises. -/
theorem claim_C2_fails_closed :
    (∀ (resp : Except String String) (text d c : String), pyBlank text = true →
      normalize_text resp text d c =
        .obj [("error", .str "No text provided for normalization.")]) ∧
    (∀ (s text d c : String), pyBlank text = false →
      jsonLoads (pyStrip s) = none →
      jsonLoads (pyStrip (lastSegment (pyStrip s))) = none →
      ∃ fs, normalize_text (.ok s) text d c = .obj fs ∧
        dictGet fs "error" = some (.str "Invalid JSON returned from model.")) ∧
    (∀ (resp : Except String String) (text d c : String),
      ∃ fs, normalize_text resp text d c = .obj fs) := by
  refine ⟨?_, ?_, ?_⟩
  · intro resp text d c hb
    unfold normalize_text
    rw [if_pos hb]
  · intro s text d c hb h1 h2
    have hparse : safe_parse_json (pyStrip s) =
        .obj [("error", .str "Invalid JSON returned from model.")] := by
      unfold safe_parse_json
      rw [h1, h2]
    rw [normalize_ok s text d c _ hb hparse]
    refine ⟨_, rfl, ?_⟩
    by_cases hodo : (containsSub (pyLower d) "odometer" ||
        containsSub (pyLower text) "odometer") = true
    · rw [if_pos hodo, odo_frame _ _ _ (by decide) (by decide) (by decide),
        restore_frame _ _ _ _ (by decide) (by decide)]
      apply cleanFieldsList_get_str
      rw [ensure_frame _ _ _ _ (by decide) (by decide)]
      rfl
    · rw [if_neg hodo, restore_frame _ _ _ _ (by decide) (by decide)]
      apply cleanFieldsList_get_str
      rw [ensure_frame _ _ _ _ (by decide) (by decide)]
      rfl
  · intro resp text d c
    exact normalize_total resp text d c

/-- Counterexample to C2's salvage description: for the fenced response
"```\n{"a": 1}\n```" the content *between* the last fence pair parses
fine, but the code retries on the content *after* the last fence (empty),
so the invalid-JSON error object results. -/
theorem claim_C2_counterexample :
    jsonLoads (pyStrip "```\n\x7b\"a\": 1\x7d\n```") = none ∧
    (betweenLastFencePair "```\n\x7b\"a\": 1\x7d\n```").map
      (fun t => jsonLoads (pyStrip t)) =
      some (some (.obj [("a", .num "1")])) ∧
    normalize_text (.ok "```\n\x7b\"a\": 1\x7d\n```") "x" "Generic" "0.0" =
      .obj [("error", .str "Invalid JSON returned from model."),
            ("DocumentType", .str "Generic"), ("ConfidenceScore", .num "0.0")] :=
  ⟨rfl, rfl, rfl⟩

/-- Witness for C2 on a blank text and on a doubly-unparsable response. -/
theorem claim_C2_fails_closed_witness :
    normalize_text (.ok "whatever") "  " "Generic" "0.0" =
      .obj [("error", .str "No text provided for normalization.")] ∧
    ∃ fs, normalize_text (.ok "not json") "t" "Generic" "0.0" = .obj fs ∧
      dictGet fs "error" = some (.str "Invalid JSON returned from model.") :=
  ⟨claim_C2_fails_closed.1 (.ok "whatever") "  " "Generic" "0.0" rfl,
   claim_C2_fails_closed.2.1 "not json" "t" "Generic" "0.0" rfl rfl rfl⟩

/-- C7 (amended): when the model call succeeds *and its response parses to
a JSON object*, the returned record always carries `DocumentType` and
`ConfidenceScore`: the model's own values when it emitted the keys (even
null/empty, restored after stripping), the `doc_type`/`confidence`
arguments otherwise.  (When the response parses to a non-object the
required-field lines raise and the failure record lacks the keys — see the
counterexample.) -/
theorem claim_C7_required_fields (s text d c : String)
    (fields0 : List (String × Json))
    (htext : pyBlank text = false)
    (hparse : safe_parse_json (pyStrip s) = .obj fields0) :
    ∃ fs, normalize_text (.ok s) text d c = .obj fs ∧
      containsKey fs "DocumentType" = true ∧
      containsKey fs "ConfidenceScore" = true ∧
      dictGet fs "DocumentType" =
        some ((dictGet fields0 "DocumentType").getD (.str d)) ∧
      dictGet fs "ConfidenceScore" =
        some ((dictGet fields0 "ConfidenceScore").getD (.num c)) := by
  rw [normalize_ok s text d c fields0 htext hparse]
  by_cases hodo : (containsSub (pyLower d) "odometer" ||
      containsSub (pyLower text) "odometer") = true
  · rw [if_pos hodo]
    have hd : dictGet (odometer_postprocess
        (clean_and_restore (ensure_required_fields fields0 d c) d c) text)
        "DocumentType" = some ((dictGet fields0 "DocumentType").getD (.str d)) := by
      rw [odo_frame _ _ _ (by decide) (by decide) (by decide), restore_get_doc,
        ensure_get_doc, Option.getD_some]
    have hc : dictGet (odometer_postprocess
        (clean_and_restore (ensure_required_fields fields0 d c) d c) text)
        "ConfidenceScore" =
        some ((dictGet fields0 "ConfidenceScore").getD (.num c)) := by
      rw [odo_frame _ _ _ (by decide) (by decide) (by decide), restore_get_conf,
        ensure_get_conf, Option.getD_some]
    exact ⟨_, rfl, by rw [containsKey_isSome, hd]; rfl,
      by rw [containsKey_isSome, hc]; rfl, hd, hc⟩
  · rw [if_neg hodo]
    have hd : dictGet (clean_and_restore (ensure_required_fields fields0 d c) d c)
        "DocumentType" = some ((dictGet fields0 "DocumentType").getD (.str d)) := by
      rw [restore_get_doc, ensure_get_doc, Option.getD_some]
    have hc : dictGet (clean_and_restore (ensure_required_fields fields0 d c) d c)
        "ConfidenceScore" =
        some ((dictGet fields0 "ConfidenceScore").getD (.num c)) := by
      rw [restore_get_conf, ensure_get_conf, Option.getD_some]
    exact ⟨_, rfl, by rw [containsKey_isSome, hd]; rfl,
      by rw [containsKey_isSome, hc]; rfl, hd, hc⟩

/-- Counterexample to C7 as stated: the model call succeeds with the valid
JSON array "[1, 2]", but then the required-field lines raise on the
non-dict value and the returned failure record has no `DocumentType`. -/
theorem claim_C7_counterexample :
    normalize_text (.ok "[1, 2]") "abc" "Generic" "0.0" =
      .obj [("error", .str "Text normalization failed"),
            ("message", .str "TypeError: parsed model output is not a JSON object")] ∧
    containsKey [("error", Json.str "Text normalization failed"),
      ("message", Json.str "TypeError: parsed model output is not a JSON object")]
      "DocumentType" = false :=
  ⟨rfl, rfl⟩

/-- Witness for C7: a response that omits both required keys gets the
defaults. -/
theorem claim_C7_required_fields_witness :
    ∃ fs, normalize_text (.ok "\x7b\"A\": 1\x7d") "t" "Generic" "0.9" = .obj fs ∧
      containsKey fs "DocumentType" = true ∧
      containsKey fs "ConfidenceScore" = true ∧
      dictGet fs "DocumentType" =
        some ((dictGet [("A", Json.num "1")] "DocumentType").getD (.str "Generic")) ∧
      dictGet fs "ConfidenceScore" =
        some ((dictGet [("A", Json.num "1")] "ConfidenceScore").getD (.num "0.9")) :=
  claim_C7_required_fields "\x7b\"A\": 1\x7d" "t" "Generic" "0.9"
    [("A", Json.num "1")] rfl rfl

/-- C8 (amended): when the detected type or the source text mentions
"odometer", the record is exactly the odometer post-processing of the
cleaned/restored record; that post-processing leaves every key other than
`OdometerReading`/`Unit`/`TripReading` untouched, overwrites
`OdometerReading` *and* `Unit` exactly when a non-empty odometer value was
recovered (the amendment: a recovered `Unit` alone is not merged), and
overwrites `TripReading` exactly when a non-empty trip value was
recovered. -/
theorem claim_C8_odometer_merge (s text d c : String)
    (fields0 : List (String × Json))
    (htext : pyBlank text = false)
    (hparse : safe_parse_json (pyStrip s) = .obj fields0)
    (hodo : (containsSub (pyLower d) "odometer" ||
             containsSub (pyLower text) "odometer") = true) :
    normalize_text (.ok s) text d c =
      .obj (odometer_postprocess
        (clean_and_restore (ensure_required_fields fields0 d c) d c) text) ∧
    (∀ (fs : List (String × Json)) (key : String), key ≠ "OdometerReading" →
      key ≠ "Unit" → key ≠ "TripReading" →
      dictGet (odometer_postprocess fs text) key = dictGet fs key) ∧
    (∀ fs : List (String × Json),
      (dictGet (extract_odometer_and_trip_values text) "OdometerReading").getD ""
        ≠ "" →
      dictGet (odometer_postprocess fs text) "OdometerReading" =
        some (.str ((dictGet (extract_odometer_and_trip_values text)
          "OdometerReading").getD "")) ∧
      dictGet (odometer_postprocess fs text) "Unit" =
        some (.str ((dictGet (extract_odometer_and_trip_values text)
          "Unit").getD "miles"))) ∧
    (∀ fs : List (String × Json),
      (dictGet (extract_odometer_and_trip_values text) "OdometerReading").getD ""
        = "" →
      dictGet (odometer_postprocess fs text) "OdometerReading" =
        dictGet fs "OdometerReading" ∧
      dictGet (odometer_postprocess fs text) "Unit" = dictGet fs "Unit") ∧
    (∀ fs : List (String × Json),
      (dictGet (extract_odometer_and_trip_values text) "TripReading").getD ""
        ≠ "" →
      dictGet (odometer_postprocess fs text) "TripReading" =
        some (.str ((dictGet (extract_odometer_and_trip_values text)
          "TripReading").getD ""))) ∧
    (∀ fs : List (String × Json),
      (dictGet (extract_odometer_and_trip_values text) "TripReading").getD ""
        = "" →
      dictGet (odometer_postprocess fs text) "TripReading" =
        dictGet fs "TripReading") := by
  refine ⟨?_, fun fs key h1 h2 h3 => odo_frame fs text key h1 h2 h3,
    fun fs h => odo_merge_reading fs text h,
    fun fs h => odo_no_reading fs text h,
    fun fs h => odo_merge_trip fs text h,
    fun fs h => odo_no_trip fs text h⟩
  rw [normalize_ok s text d c fields0 htext hparse, if_pos hodo]

/-- Counterexample to C8 as stated: with source text "odometer km" the
extractor recovers `Unit = "km"` but no odometer value, so nothing is
merged and a model-provided `Unit: "miles"` survives — a recovered `Unit`
value was *not* merged. -/
theorem claim_C8_counterexample :
    dictGet (extract_odometer_and_trip_values "odometer km") "Unit" = some "km" ∧
    normalize_text (.ok "\x7b\"Unit\": \"miles\"\x7d") "odometer km" "Generic" "0.0" =
      .obj [("Unit", .str "miles"), ("DocumentType", .str "Generic"),
            ("ConfidenceScore", .num "0.0")] :=
  ⟨rfl, rfl⟩

/-- Witness for C8: an odometer text with a recovered reading. -/
theorem claim_C8_odometer_merge_witness :
    normalize_text (.ok "\x7b\"Foo\": \"bar\"\x7d") "odometer 123 mi" "Generic" "0.0" =
      .obj (odometer_postprocess (clean_and_restore
        (ensure_required_fields [("Foo", Json.str "bar")] "Generic" "0.0")
        "Generic" "0.0") "odometer 123 mi") ∧
    dictGet (odometer_postprocess [] "odometer 123 mi") "OdometerReading" =
      some (.str ((dictGet (extract_odometer_and_trip_values "odometer 123 mi")
        "OdometerReading").getD "")) :=
  ⟨(claim_C8_odometer_merge "\x7b\"Foo\": \"bar\"\x7d" "odometer 123 mi" "Generic"
      "0.0" [("Foo", Json.str "bar")] rfl rfl rfl).1,
   ((claim_C8_odometer_merge "\x7b\"Foo\": \"bar\"\x7d" "odometer 123 mi" "Generic"
      "0.0" [("Foo", Json.str "bar")] rfl rfl rfl).2.2.1 [] (by decide)).1⟩
